import Mathlib

/-!
Verification of the "Stochastic Regularization Layer Library" described by the
repository's notebooks (Tutorial 6: Dropout and BatchNorm).  The notebooks only
call the library layers (`nnx.Dropout`, `nnx.BatchNorm`); the layer
implementations themselves are not part of the repository, so the transforms
below are modelled from the specification's contracts (§3, §4.1, §4.2, §4.3,
§6, §7).
-/

namespace RegLib

/-- Modelled from the spec: the training-vs-evaluation operating state (§3
"Mode": a binary flag, `Training` or `Evaluation`). -/
inductive Mode where
  | Training : Mode
  | Evaluation : Mode
deriving DecidableEq, Repr

/-- Modelled from the spec: the RNG-stream collaborator (§6) is external to the
repository; it is modelled as a deterministic mixing function from (stream key,
per-call counter, element index) to a machine word. -/
def mix (key count i : Nat) : Nat :=
  let s := key * 747796405 + count * 2891336453 + i * 2654435761 + 1013904223
  (s * 2654435761 + s / 65536) % 4294967296

/-- Modelled from the spec: one uniform draw in `[0,1)` from the RNG-stream
collaborator, addressed by stream key, call counter and element index. -/
def draw (key count i : Nat) : ℚ :=
  ((mix key count i % 65536 : ℕ) : ℚ) / 65536

/-- A Bernoulli(keep-probability = `1 - p`) bit: the element is kept exactly
when the uniform draw falls below `1 - p` (§4.1).  Stated on the integer
numerator/denominator of `p` so that the comparison is pure integer
arithmetic; `keepBit_eq_true_iff` shows it agrees with `draw < 1 - p`. -/
def keepBit (p : ℚ) (key count i : Nat) : Bool :=
  decide (((mix key count i % 65536 : ℕ) : ℤ) * p.den < ((p.den : ℤ) - p.num) * 65536)

/-- The keep-mask of a length-`n` input drawn on training call number `count`
of stream `key` (§4.1: "draw an independent Bernoulli(keep-probability =
`1 - p`) mask with the same shape as `x`"). -/
def dropoutMask (p : ℚ) (key count n : Nat) : List Bool :=
  (List.range n).map (keepBit p key count)

/-- Modelled from the spec: the training-mode dropout computation on a vector
(§4.1): multiply `x` elementwise by `mask / (1 - p)` (inverted dropout). -/
def dropoutTrainList (p : ℚ) (key count : Nat) (x : List ℚ) : List ℚ :=
  List.zipWith (fun (b : Bool) (a : ℚ) => if b then a / (1 - p) else 0)
    (dropoutMask p key count x.length) x

/-- Modelled from the spec: training-mode dropout on a rank-2 input whose
second axis is listed in `broadcast_dims` (§4.1): all elements sharing an index
along a broadcast axis receive the same mask value, so one bit is drawn per
row and shared across that row. -/
def dropoutTrainBroadcast (p : ℚ) (key count : Nat) (xs : List (List ℚ)) :
    List (List ℚ) :=
  List.zipWith
    (fun (b : Bool) (row : List ℚ) =>
      if b then row.map (fun a => a / (1 - p)) else row.map (fun _ => (0 : ℚ)))
    (dropoutMask p key count xs.length) xs

/-- Modelled from the spec: `DropoutState` (§3) — drop probability `p` and the
RNG stream handle (stream key and per-call counter). -/
structure DropoutState where
  p : ℚ
  key : Nat
  count : Nat
deriving DecidableEq, Repr

/-- Modelled from the spec: the dropout contract
`apply(x, state, mode) → (tensor, state)` (§4.1).  Evaluation mode is the
identity with no RNG consumption; training mode applies the inverted-dropout
mask and advances the RNG counter by one draw. -/
def dropoutApply (x : List ℚ) (st : DropoutState) (mode : Mode) :
    List ℚ × DropoutState :=
  match mode with
  | .Evaluation => (x, st)
  | .Training =>
      (dropoutTrainList st.p st.key st.count x,
       { st with count := st.count + 1 })

/-- Modelled from the spec: the invalid-configuration error taxonomy (§7). -/
inductive ConfigError where
  | invalidProbability : ConfigError
deriving DecidableEq, Repr

/-- Modelled from the spec: a constructed Dropout transform — its state
together with its mode flag (§3 "Mode ... defaults to `Training` at
construction"). -/
structure Dropout where
  state : DropoutState
  mode : Mode
deriving DecidableEq, Repr

/-- Modelled from the spec: Dropout construction (§4.1, §7): a drop
probability outside `[0,1]`, and the degenerate `p = 1`, fail at construction
time with the invalid-configuration error; otherwise the transform starts in
`Training` mode with a fresh RNG counter. -/
def mkDropout (p : ℚ) (key : Nat) : Except ConfigError Dropout :=
  if 0 ≤ p ∧ p < 1 then .ok ⟨⟨p, key, 0⟩, .Training⟩
  else .error .invalidProbability

/-- Invoking a constructed Dropout transform threads its stored mode into the
`apply` contract; the mode flag itself is not touched by the call. -/
def Dropout.call (l : Dropout) (x : List ℚ) : List ℚ × Dropout :=
  ((dropoutApply x l.state l.mode).1, ⟨(dropoutApply x l.state l.mode).2, l.mode⟩)

/-! ### BatchNorm transform (modelled from spec §4.2) -/

/-- Modelled from the spec: per-feature batch mean over the leading batch
dimension (§4.2 step 1), for a batch `x : Fin m → Fin d → ℝ` of `m` samples
with `d` features. -/
noncomputable def batchMean {m d : ℕ} (x : Fin m → Fin d → ℝ) (k : Fin d) : ℝ :=
  (∑ i, x i k) / m

/-- Modelled from the spec: per-feature batch variance, the biased
population-style estimate dividing by the batch size `m` (§4.2 numeric
policy). -/
noncomputable def batchVar {m d : ℕ} (x : Fin m → Fin d → ℝ) (k : Fin d) : ℝ :=
  (∑ i, (x i k - batchMean x k) ^ 2) / m

/-- Modelled from the spec: the spec's alternative unbiased batch-variance
formula (divide by `m - 1`), stated only to be compared against the variance
the transform actually uses. -/
noncomputable def batchVarUnbiased {m d : ℕ} (x : Fin m → Fin d → ℝ) (k : Fin d) : ℝ :=
  (∑ i, (x i k - batchMean x k) ^ 2) / (m - 1)

/-- Modelled from the spec: `BatchNormState` (§3) — learnable per-feature
`scale`/`bias`, running statistics buffers, momentum `α` and stability
constant `ε`. -/
structure BatchNormState (d : ℕ) where
  scale : Fin d → ℝ
  bias : Fin d → ℝ
  running_mean : Fin d → ℝ
  running_var : Fin d → ℝ
  momentum : ℝ
  eps : ℝ

/-- Modelled from the spec: the BatchNorm contract
`apply(x, state, mode) → (tensor, updated_state)` (§4.2).  Training mode
normalizes with the batch statistics, applies the affine transform and
updates the running statistics by exponential moving average; evaluation mode
normalizes with the stored running statistics and mutates nothing. -/
noncomputable def bnApply {m d : ℕ} (x : Fin m → Fin d → ℝ)
    (st : BatchNormState d) (mode : Mode) :
    (Fin m → Fin d → ℝ) × BatchNormState d :=
  match mode with
  | .Training =>
      (fun i k => st.scale k * ((x i k - batchMean x k)
          / Real.sqrt (batchVar x k + st.eps)) + st.bias k,
       { st with
          running_mean := fun k =>
            st.momentum * st.running_mean k + (1 - st.momentum) * batchMean x k
          running_var := fun k =>
            st.momentum * st.running_var k + (1 - st.momentum) * batchVar x k })
  | .Evaluation =>
      (fun i k => st.scale k * ((x i k - st.running_mean k)
          / Real.sqrt (st.running_var k + st.eps)) + st.bias k,
       st)

/-- Modelled from the spec: BatchNorm state at construction (§3 lifecycle):
running statistics initialized to `(0, 1)`, `scale = 1`, `bias = 0`. -/
noncomputable def mkBatchNormState (d : ℕ) (momentum eps : ℝ) : BatchNormState d :=
  { scale := fun _ => 1
    bias := fun _ => 0
    running_mean := fun _ => 0
    running_var := fun _ => 1
    momentum := momentum
    eps := eps }

/-- Modelled from the spec: a constructed BatchNorm transform — its state
together with its mode flag. -/
structure BatchNorm (d : ℕ) where
  state : BatchNormState d
  mode : Mode

/-- Modelled from the spec: BatchNorm construction starts in Training mode
(§3 "defaults to `Training` at construction"). -/
noncomputable def mkBatchNorm (d : ℕ) (momentum eps : ℝ) : BatchNorm d :=
  ⟨mkBatchNormState d momentum eps, .Training⟩

/-- Invoking a constructed BatchNorm transform threads its stored mode into
the `apply` contract; the mode flag itself is not touched by the call. -/
noncomputable def BatchNorm.call {m d : ℕ} (l : BatchNorm d)
    (x : Fin m → Fin d → ℝ) : (Fin m → Fin d → ℝ) × BatchNorm d :=
  ((bnApply x l.state l.mode).1, ⟨(bnApply x l.state l.mode).2, l.mode⟩)

/-! ### Mode-propagation over composed models (modelled from spec §4.3, §6) -/

/-- Modelled from the spec: the mode-carrying object graph of a composed
model (§4.3): Dropout and BatchNorm sub-transforms composed at arbitrary
nesting depth.  A BatchNorm leaf is represented by its mode flag, the only
datum the mode-switch entry points read or write. -/
inductive Net where
  | dropoutLayer : Dropout → Net
  | batchNormLayer : Mode → Net
  | comp : Net → Net → Net
deriving DecidableEq, Repr

/-- The modes reported by every contained sub-transform, in left-to-right
order. -/
def Net.modes : Net → List Mode
  | .dropoutLayer l => [l.mode]
  | .batchNormLayer mo => [mo]
  | .comp a b => a.modes ++ b.modes

/-- Modelled from the spec: the recursive mode-propagation routine (§4.3)
underlying both mode-switch entry points. -/
def Net.setMode (mo : Mode) : Net → Net
  | .dropoutLayer l => .dropoutLayer ⟨l.state, mo⟩
  | .batchNormLayer _ => .batchNormLayer mo
  | .comp a b => .comp (a.setMode mo) (b.setMode mo)

/-- Modelled from the spec: the `setTrainingMode()` entry point (§6). -/
def setTrainingMode (n : Net) : Net := n.setMode .Training

/-- Modelled from the spec: the `setEvaluationMode()` entry point (§6). -/
def setEvaluationMode (n : Net) : Net := n.setMode .Evaluation

/-- The public mode-switch operations of a composed model (§6): there are
exactly two, both total. -/
inductive SwitchOp where
  | toTraining : SwitchOp
  | toEvaluation : SwitchOp
deriving DecidableEq, Repr

def applyOp : SwitchOp → Net → Net
  | .toTraining, n => setTrainingMode n
  | .toEvaluation, n => setEvaluationMode n

/-- A sequence of public mode-switch operations applied in order. -/
def applyOps (ops : List SwitchOp) (n : Net) : Net :=
  ops.foldl (fun acc op => applyOp op acc) n

def Net.hasDropout : Net → Bool
  | .dropoutLayer _ => true
  | .batchNormLayer _ => false
  | .comp a b => a.hasDropout || b.hasDropout

def Net.hasBatchNorm : Net → Bool
  | .dropoutLayer _ => false
  | .batchNormLayer _ => true
  | .comp a b => a.hasBatchNorm || b.hasBatchNorm

/-- Shapes of composed models: each dropout leaf records the configuration it
was constructed with. -/
inductive Shape where
  | drop : ℚ → Nat → Shape
  | bnorm : Shape
  | comp : Shape → Shape → Shape

/-- A freshly constructed composed model of the given shape: every
sub-transform carries the construction-default `Training` mode flag (§3). -/
def build : Shape → Net
  | .drop p key => .dropoutLayer ⟨⟨p, key, 0⟩, .Training⟩
  | .bnorm => .batchNormLayer .Training
  | .comp s t => .comp (build s) (build t)

/-- `n.uniform mo` holds when every contained sub-transform reports mode
`mo` (§4.3: the negation of a partial-mode state). -/
def Net.uniform (n : Net) (mo : Mode) : Bool :=
  n.modes.all (fun q => q == mo)

/-! ### Helper lemmas about the RNG draws and the dropout computation -/

theorem draw_nonneg (key count i : Nat) : 0 ≤ draw key count i := by
  unfold draw
  positivity

theorem draw_lt_one (key count i : Nat) : draw key count i < 1 := by
  unfold draw
  rw [div_lt_one (show (0:ℚ) < 65536 by norm_num)]
  exact_mod_cast Nat.mod_lt _ (show 0 < 65536 by norm_num)

/-- The integer comparison in `keepBit` is exactly the spec's
"uniform draw `< 1 - p`" Bernoulli(`1 - p`) keep test. -/
theorem keepBit_eq_true_iff (p : ℚ) (key count i : Nat) :
    keepBit p key count i = true ↔ draw key count i < 1 - p := by
  have hden : (0:ℚ) < (p.den : ℚ) := by exact_mod_cast p.pos
  have hmul : p * (p.den : ℚ) = (p.num : ℚ) := by
    nth_rewrite 1 [← Rat.num_div_den p]
    exact div_mul_cancel₀ _ (ne_of_gt hden)
  rw [keepBit, decide_eq_true_iff, draw,
    div_lt_iff₀ (show (0:ℚ) < 65536 by norm_num)]
  generalize mix key count i % 65536 = r
  constructor
  · intro h
    qify at h
    nlinarith [hmul, hden]
  · intro h
    qify
    nlinarith [hmul, hden]

theorem keepBit_zero (key count i : Nat) : keepBit 0 key count i = true := by
  rw [keepBit_eq_true_iff]
  simpa using draw_lt_one key count i

theorem length_dropoutMask (p : ℚ) (key count n : Nat) :
    (dropoutMask p key count n).length = n := by
  simp [dropoutMask]

theorem length_dropoutTrainList (p : ℚ) (key count : Nat) (x : List ℚ) :
    (dropoutTrainList p key count x).length = x.length := by
  simp [dropoutTrainList, length_dropoutMask]

theorem getElem_dropoutTrainList (p : ℚ) (key count : Nat) (x : List ℚ) (i : Nat)
    (h : i < (dropoutTrainList p key count x).length) (hx : i < x.length) :
    (dropoutTrainList p key count x)[i]
      = if keepBit p key count i then x[i] / (1 - p) else 0 := by
  simp [dropoutTrainList, dropoutMask, List.getElem_zipWith,
    List.getElem_map, List.getElem_range]

theorem dropoutTrainList_zero (key count : Nat) (x : List ℚ) :
    dropoutTrainList 0 key count x = x := by
  apply List.ext_getElem (length_dropoutTrainList 0 key count x)
  intro i h1 h2
  rw [getElem_dropoutTrainList 0 key count x i h1 h2]
  simp [keepBit_zero]

theorem length_dropoutTrainBroadcast (p : ℚ) (key count : Nat)
    (xs : List (List ℚ)) :
    (dropoutTrainBroadcast p key count xs).length = xs.length := by
  simp [dropoutTrainBroadcast, length_dropoutMask]

theorem getElem_dropoutTrainBroadcast (p : ℚ) (key count : Nat)
    (xs : List (List ℚ)) (i : Nat)
    (h : i < (dropoutTrainBroadcast p key count xs).length)
    (hx : i < xs.length) :
    (dropoutTrainBroadcast p key count xs)[i]
      = if keepBit p key count i then xs[i].map (fun a => a / (1 - p))
        else xs[i].map (fun _ => (0:ℚ)) := by
  simp [dropoutTrainBroadcast, dropoutMask, List.getElem_zipWith,
    List.getElem_map, List.getElem_range]

/-! ### Helper lemmas about mode propagation and batch statistics -/

theorem uniform_iff (n : Net) (mo : Mode) :
    n.uniform mo = true ↔ ∀ q ∈ n.modes, q = mo := by
  simp [Net.uniform, List.all_eq_true]

theorem modes_setMode (mo : Mode) (n : Net) :
    (n.setMode mo).modes = n.modes.map (fun _ => mo) := by
  induction n with
  | dropoutLayer l => rfl
  | batchNormLayer mo2 => rfl
  | comp a b iha ihb => simp [Net.setMode, Net.modes, iha, ihb]

theorem uniform_setMode (mo : Mode) (n : Net) : (n.setMode mo).uniform mo = true := by
  rw [uniform_iff, modes_setMode]
  intro q hq
  simp at hq
  exact hq.2

theorem setMode_setMode (mo1 mo2 : Mode) (n : Net) :
    (n.setMode mo1).setMode mo2 = n.setMode mo2 := by
  induction n with
  | dropoutLayer l => rfl
  | batchNormLayer mo3 => rfl
  | comp a b iha ihb => simp [Net.setMode, iha, ihb]

theorem setMode_of_uniform (mo : Mode) (n : Net) (h : n.uniform mo = true) :
    n.setMode mo = n := by
  rw [uniform_iff] at h
  induction n with
  | dropoutLayer l =>
      have : l.mode = mo := h l.mode (by simp [Net.modes])
      cases l
      simp [Net.setMode]
      exact this.symm
  | batchNormLayer mo2 =>
      have : mo2 = mo := h mo2 (by simp [Net.modes])
      simp [Net.setMode, this]
  | comp a b iha ihb =>
      have ha : ∀ q ∈ a.modes, q = mo := fun q hq => h q (by simp [Net.modes, hq])
      have hb : ∀ q ∈ b.modes, q = mo := fun q hq => h q (by simp [Net.modes, hq])
      simp [Net.setMode, iha ha, ihb hb]

theorem applyOps_cons (op : SwitchOp) (ops : List SwitchOp) (n : Net) :
    applyOps (op :: ops) n = applyOps ops (applyOp op n) := rfl

theorem applyOp_uniform (op : SwitchOp) (n : Net) :
    ∃ mo : Mode, (applyOp op n).uniform mo = true := by
  cases op with
  | toTraining => exact ⟨.Training, uniform_setMode _ n⟩
  | toEvaluation => exact ⟨.Evaluation, uniform_setMode _ n⟩

theorem applyOps_uniform (ops : List SwitchOp) (n : Net)
    (h : ∃ mo : Mode, n.uniform mo = true) :
    ∃ mo : Mode, (applyOps ops n).uniform mo = true := by
  induction ops generalizing n with
  | nil => exact h
  | cons op rest ih =>
      rw [applyOps_cons]
      exact ih (applyOp op n) (applyOp_uniform op n)

theorem uniform_build (s : Shape) : (build s).uniform Mode.Training = true := by
  induction s with
  | drop p key => rfl
  | bnorm => rfl
  | comp s t ihs iht =>
      rw [uniform_iff] at ihs iht ⊢
      intro q hq
      have hq2 : q ∈ (build s).modes ++ (build t).modes := hq
      rcases List.mem_append.mp hq2 with h | h
      · exact ihs q h
      · exact iht q h

theorem list_ne_of_get_ne {α : Type} {l l' : List α} (i : Nat)
    (h : i < l.length) (h' : i < l'.length)
    (hne : l.get ⟨i, h⟩ ≠ l'.get ⟨i, h'⟩) : l ≠ l' := by
  intro he
  apply hne
  subst he
  rfl

theorem batchMean_mul {m d : ℕ} (hm : (m:ℝ) ≠ 0) (x : Fin m → Fin d → ℝ)
    (k : Fin d) : (m:ℝ) * batchMean x k = ∑ i, x i k := by
  rw [batchMean]
  field_simp

theorem batchVar_mul {m d : ℕ} (hm : (m:ℝ) ≠ 0) (x : Fin m → Fin d → ℝ)
    (k : Fin d) : (m:ℝ) * batchVar x k = ∑ i, (x i k - batchMean x k) ^ 2 := by
  rw [batchVar]
  field_simp

theorem batchVar_eq_fast {m d : ℕ} (hm : (m:ℝ) ≠ 0) (x : Fin m → Fin d → ℝ)
    (k : Fin d) :
    batchVar x k = (∑ i, (x i k) ^ 2) / m - (batchMean x k) ^ 2 := by
  have hsum : (∑ i, x i k) = (m:ℝ) * batchMean x k := (batchMean_mul hm x k).symm
  have hexp : (∑ i, (x i k - batchMean x k) ^ 2)
      = (∑ i, (x i k) ^ 2) - (m:ℝ) * (batchMean x k) ^ 2 := by
    have hterm : ∀ i : Fin m, (x i k - batchMean x k) ^ 2
        = ((x i k) ^ 2 - 2 * batchMean x k * (x i k)) + (batchMean x k) ^ 2 :=
      fun i => by ring
    rw [Finset.sum_congr rfl (fun i _ => hterm i), Finset.sum_add_distrib,
      Finset.sum_sub_distrib, ← Finset.mul_sum, hsum, Finset.sum_const,
      Finset.card_univ, Fintype.card_fin, nsmul_eq_mul]
    ring
  rw [batchVar, hexp]
  field_simp

/-! ### Claim theorems -/

/-- C1: for every tensor `x` and every drop probability `p` with
`0 ≤ p < 1`, a Dropout apply call in Training mode draws a Bernoulli(`1-p`)
keep-mask of the shape of `x` (shared along broadcast axes) and returns `x`
multiplied elementwise by `mask / (1-p)`: every output element is either `0`
or the corresponding input element scaled by exactly `1/(1-p)`, and for
`p = 0` the output equals the input exactly. -/
theorem dropout_training_inverted_scaling (p : ℚ) (hp0 : 0 ≤ p) (hp1 : p < 1)
    (key count : Nat) :
    (∀ x : List ℚ, (dropoutTrainList p key count x).length = x.length)
    ∧ (∀ k c i, keepBit p k c i = true ↔ draw k c i < 1 - p)
    ∧ (∀ (x : List ℚ) (i : Nat) (h : i < (dropoutTrainList p key count x).length)
        (hx : i < x.length),
        (dropoutTrainList p key count x)[i] = 0
        ∨ (dropoutTrainList p key count x)[i] = x[i] * (1 / (1 - p)))
    ∧ (∀ (xs : List (List ℚ)) (i : Nat)
        (h : i < (dropoutTrainBroadcast p key count xs).length)
        (hx : i < xs.length),
        (dropoutTrainBroadcast p key count xs)[i]
            = xs[i].map (fun a => a * (1 / (1 - p)))
        ∨ (dropoutTrainBroadcast p key count xs)[i]
            = xs[i].map (fun _ => (0:ℚ)))
    ∧ (p = 0 → ∀ x : List ℚ, (dropoutApply x ⟨p, key, count⟩ .Training).1 = x) := by
  have hdiv : ∀ a : ℚ, a / (1 - p) = a * (1 / (1 - p)) := fun a => by
    rw [div_eq_mul_inv, one_div]
  refine ⟨fun x => length_dropoutTrainList p key count x,
    fun k c i => keepBit_eq_true_iff p k c i, ?_, ?_, ?_⟩
  · intro x i h hx
    rw [getElem_dropoutTrainList p key count x i h hx]
    by_cases hb : keepBit p key count i
    · right
      rw [if_pos hb, hdiv]
    · left
      rw [if_neg hb]
  · intro xs i h hx
    rw [getElem_dropoutTrainBroadcast p key count xs i h hx]
    by_cases hb : keepBit p key count i
    · left
      rw [if_pos hb]
      exact List.map_congr_left (fun a _ => hdiv a)
    · right
      rw [if_neg hb]
  · intro hp x
    subst hp
    exact dropoutTrainList_zero key count x

/-- C1 witness: the theorem applied at the concrete drop probability `p = 0`
on the input `[3, -2]`, where training-mode dropout is the identity. -/
theorem dropout_training_inverted_scaling_witness :
    (0:ℚ) ≤ 0 ∧ (0:ℚ) < 1
    ∧ (dropoutTrainList 0 0 0 [3, -2]).length = 2
    ∧ (dropoutApply [3, -2] ⟨0, 0, 0⟩ .Training).1 = [3, -2] := by
  have h := dropout_training_inverted_scaling 0 (le_refl 0) (by norm_num) 0 0
  exact ⟨le_refl 0, by norm_num, h.1 [3, -2], h.2.2.2.2 rfl [3, -2]⟩

/-- C2: a Dropout apply call in Evaluation mode returns `x` unchanged and the
state unchanged (so no draw is consumed from the RNG stream and there is no
side effect), and a repeated evaluation call on the same input returns the
same output. -/
theorem dropout_evaluation_identity (x : List ℚ) (st : DropoutState) :
    dropoutApply x st .Evaluation = (x, st)
    ∧ (dropoutApply x st .Evaluation).2.count = st.count
    ∧ dropoutApply x (dropoutApply x st .Evaluation).2 .Evaluation = (x, st) :=
  ⟨rfl, rfl, rfl⟩

/-- C7: constructing a Dropout transform with `p = 1` or `p = -1/10` (and in
general any `p < 0` or `p ≥ 1`) fails at construction time with the
invalid-configuration error, while `p = 0` constructs successfully (in
Training mode) and behaves as the identity in both modes. -/
theorem dropout_invalid_probability_rejection (key : Nat) :
    mkDropout 1 key = .error .invalidProbability
    ∧ mkDropout (mkRat (-1) 10) key = .error .invalidProbability
    ∧ (mkRat (-1) 10 : ℚ) = -(1/10)
    ∧ (∀ p : ℚ, p < 0 ∨ 1 ≤ p → mkDropout p key = .error .invalidProbability)
    ∧ mkDropout 0 key = .ok ⟨⟨0, key, 0⟩, .Training⟩
    ∧ (∀ x : List ℚ, (dropoutApply x ⟨0, key, 0⟩ .Training).1 = x)
    ∧ (∀ (x : List ℚ) (st : DropoutState), (dropoutApply x st .Evaluation).1 = x) := by
  have hneg : (mkRat (-1) 10 : ℚ) = -(1/10) := by
    rw [Rat.mkRat_eq_divInt, Rat.divInt_eq_div]
    norm_num
  have hgen : ∀ p : ℚ, p < 0 ∨ 1 ≤ p →
      mkDropout p key = .error .invalidProbability := by
    intro p hp
    rw [mkDropout, if_neg]
    rintro ⟨h0, h1⟩
    rcases hp with h | h
    · linarith
    · linarith
  refine ⟨?_, ?_, hneg, hgen, ?_, ?_, fun x st => rfl⟩
  · exact hgen 1 (Or.inr le_rfl)
  · exact hgen (mkRat (-1) 10) (Or.inl (by rw [hneg]; norm_num))
  · rw [mkDropout, if_pos ⟨le_refl 0, by norm_num⟩]
  · intro x
    exact dropoutTrainList_zero key 0 x

/-- C7 witness: the theorem applied at stream key `0`, with the general
rejection clause instantiated at `p = 5/4 ≥ 1` and the `p = 0` identity
instantiated on `[7]`. -/
theorem dropout_invalid_probability_rejection_witness :
    mkDropout 1 0 = .error .invalidProbability
    ∧ mkDropout (mkRat 5 4) 0 = .error .invalidProbability
    ∧ mkDropout 0 0 = .ok ⟨⟨0, 0, 0⟩, .Training⟩
    ∧ (dropoutApply [7] ⟨0, 0, 0⟩ .Training).1 = [7] := by
  have h := dropout_invalid_probability_rejection 0
  refine ⟨h.1, ?_, h.2.2.2.2.1, h.2.2.2.2.2.1 [7]⟩
  refine h.2.2.2.1 (mkRat 5 4) (Or.inr ?_)
  rw [Rat.mkRat_eq_divInt, Rat.divInt_eq_div]
  norm_num

/-- C3: starting from running statistics `(0, 1)`, one BatchNorm training
call on a batch with per-feature mean `m` and variance `v` updates the
running statistics to `α·0 + (1-α)·m` and `α·1 + (1-α)·v` (an EMA of the
mean and of the variance); the update is performed on every training call
(last conjunct) even though the running statistics are not used to compute
the training output (third conjunct). -/
theorem batchnorm_training_ema_update {m d : ℕ} (x : Fin m → Fin d → ℝ)
    (st : BatchNormState d)
    (hmean : ∀ k, st.running_mean k = 0) (hvar : ∀ k, st.running_var k = 1) :
    (∀ k, (bnApply x st .Training).2.running_mean k
        = st.momentum * 0 + (1 - st.momentum) * batchMean x k)
    ∧ (∀ k, (bnApply x st .Training).2.running_var k
        = st.momentum * 1 + (1 - st.momentum) * batchVar x k)
    ∧ (∀ st' : BatchNormState d, st'.scale = st.scale → st'.bias = st.bias →
        st'.eps = st.eps → (bnApply x st' .Training).1 = (bnApply x st .Training).1)
    ∧ (∀ (st' : BatchNormState d) (k : Fin d),
        (bnApply x st' .Training).2.running_mean k
          = st'.momentum * st'.running_mean k + (1 - st'.momentum) * batchMean x k
        ∧ (bnApply x st' .Training).2.running_var k
          = st'.momentum * st'.running_var k + (1 - st'.momentum) * batchVar x k) := by
  refine ⟨?_, ?_, ?_, fun st' k => ⟨rfl, rfl⟩⟩
  · intro k
    show st.momentum * st.running_mean k + (1 - st.momentum) * batchMean x k
        = st.momentum * 0 + (1 - st.momentum) * batchMean x k
    rw [hmean k]
  · intro k
    show st.momentum * st.running_var k + (1 - st.momentum) * batchVar x k
        = st.momentum * 1 + (1 - st.momentum) * batchVar x k
    rw [hvar k]
  · intro st' hs hb he
    funext i k
    show st'.scale k * ((x i k - batchMean x k) / Real.sqrt (batchVar x k + st'.eps))
          + st'.bias k
        = st.scale k * ((x i k - batchMean x k) / Real.sqrt (batchVar x k + st.eps))
          + st.bias k
    rw [hs, hb, he]

/-- C3 witness: the theorem applied to the constant batch `x = 4` of two
samples and one feature, with running statistics `(0, 1)`, `scale = 1`,
`bias = 0`, momentum `99/100` and `ε = 1/100000`. -/
theorem batchnorm_training_ema_update_witness :
    (bnApply (fun (_ : Fin 2) (_ : Fin 1) => (4:ℝ))
        ⟨fun _ => 1, fun _ => 0, fun _ => 0, fun _ => 1, 99/100, 1/100000⟩
        .Training).2.running_mean 0
      = (99/100 : ℝ) * 0
        + (1 - 99/100) * batchMean (fun (_ : Fin 2) (_ : Fin 1) => (4:ℝ)) 0
    ∧ (bnApply (fun (_ : Fin 2) (_ : Fin 1) => (4:ℝ))
        ⟨fun _ => 1, fun _ => 0, fun _ => 0, fun _ => 1, 99/100, 1/100000⟩
        .Training).2.running_var 0
      = (99/100 : ℝ) * 1
        + (1 - 99/100) * batchVar (fun (_ : Fin 2) (_ : Fin 1) => (4:ℝ)) 0 := by
  have h := batchnorm_training_ema_update (fun (_ : Fin 2) (_ : Fin 1) => (4:ℝ))
    ⟨fun _ => 1, fun _ => 0, fun _ => 0, fun _ => 1, 99/100, 1/100000⟩
    (fun _ => rfl) (fun _ => rfl)
  exact ⟨h.1 0, h.2.1 0⟩

/-- C4: a BatchNorm apply call in Evaluation mode computes
`((x - running_mean) / sqrt(running_var + ε)) * scale + bias` from the stored
running statistics only (the output at a batch row depends only on that row's
values, never on the input's batch statistics), and leaves the state — in
particular both running statistics — unchanged. -/
theorem batchnorm_evaluation_frozen {m d : ℕ} (x : Fin m → Fin d → ℝ)
    (st : BatchNormState d) :
    (∀ i k, (bnApply x st .Evaluation).1 i k
        = ((x i k - st.running_mean k) / Real.sqrt (st.running_var k + st.eps))
            * st.scale k + st.bias k)
    ∧ (bnApply x st .Evaluation).2 = st
    ∧ (∀ k, (bnApply x st .Evaluation).2.running_mean k = st.running_mean k)
    ∧ (∀ k, (bnApply x st .Evaluation).2.running_var k = st.running_var k)
    ∧ (∀ (y : Fin m → Fin d → ℝ) (i : Fin m), (∀ k, x i k = y i k) →
        ∀ k, (bnApply x st .Evaluation).1 i k = (bnApply y st .Evaluation).1 i k) := by
  refine ⟨?_, rfl, fun k => rfl, fun k => rfl, ?_⟩
  · intro i k
    show st.scale k * ((x i k - st.running_mean k)
        / Real.sqrt (st.running_var k + st.eps)) + st.bias k = _
    ring
  · intro y i hxy k
    show st.scale k * ((x i k - st.running_mean k)
          / Real.sqrt (st.running_var k + st.eps)) + st.bias k
        = st.scale k * ((y i k - st.running_mean k)
          / Real.sqrt (st.running_var k + st.eps)) + st.bias k
    rw [hxy k]

/-- C4 witness: the theorem applied at the one-sample one-feature input
`x = 5` with `scale = 2`, `bias = 3`, `running_mean = 1`, `running_var = 3`,
`ε = 1`: the evaluation output is `((5-1)/sqrt(3+1))·2+3 = 7` and the state
is returned unchanged. -/
theorem batchnorm_evaluation_frozen_witness :
    (bnApply (fun (_ : Fin 1) (_ : Fin 1) => (5:ℝ))
        ⟨fun _ => 2, fun _ => 3, fun _ => 1, fun _ => 3, 99/100, 1⟩
        .Evaluation).1 0 0 = 7
    ∧ (bnApply (fun (_ : Fin 1) (_ : Fin 1) => (5:ℝ))
        ⟨fun _ => 2, fun _ => 3, fun _ => 1, fun _ => 3, 99/100, 1⟩
        .Evaluation).2
      = ⟨fun _ => 2, fun _ => 3, fun _ => 1, fun _ => 3, 99/100, 1⟩ := by
  have h := batchnorm_evaluation_frozen (fun (_ : Fin 1) (_ : Fin 1) => (5:ℝ))
    ⟨fun _ => 2, fun _ => 3, fun _ => 1, fun _ => 3, 99/100, 1⟩
  refine ⟨?_, h.2.1⟩
  rw [h.1 0 0]
  have hsqrt : Real.sqrt ((3:ℝ) + 1) = 2 := by
    rw [show (3:ℝ) + 1 = 2^2 by norm_num]
    exact Real.sqrt_sq (by norm_num)
  rw [hsqrt]
  norm_num

/-- C8: the batch variance used in the training-mode normalization is the
biased population-style estimate: `m · batchVar = Σ (x_i − μ)²` (divisor `m`,
not `m−1`), equivalently the fast-variance form `E[x²] − (E[x])²`; at the
concrete two-sample batch `(0, 2)` it gives `1` while the unbiased formula
would give `2`. -/
theorem batchnorm_biased_variance {m d : ℕ} (hm : 0 < m)
    (x : Fin m → Fin d → ℝ) (st : BatchNormState d) :
    (∀ i k, (bnApply x st .Training).1 i k
        = st.scale k * ((x i k - batchMean x k)
            / Real.sqrt (batchVar x k + st.eps)) + st.bias k)
    ∧ (∀ k, (m:ℝ) * batchVar x k = ∑ i, (x i k - batchMean x k) ^ 2)
    ∧ (∀ k, batchVar x k = (∑ i, (x i k) ^ 2) / m - (batchMean x k) ^ 2)
    ∧ batchVar (fun (i : Fin 2) (_ : Fin 1) => ((i : ℕ) : ℝ) * 2) 0 = 1
    ∧ batchVarUnbiased (fun (i : Fin 2) (_ : Fin 1) => ((i : ℕ) : ℝ) * 2) 0 = 2 := by
  have hm' : (m:ℝ) ≠ 0 := Nat.cast_ne_zero.mpr hm.ne'
  have hmean2 : batchMean (fun (i : Fin 2) (_ : Fin 1) => ((i : ℕ) : ℝ) * 2) 0 = 1 := by
    rw [batchMean, Fin.sum_univ_two]
    norm_num
  refine ⟨fun i k => rfl, fun k => batchVar_mul hm' x k,
    fun k => batchVar_eq_fast hm' x k, ?_, ?_⟩
  · rw [batchVar, Fin.sum_univ_two, hmean2]
    norm_num
  · rw [batchVarUnbiased, Fin.sum_univ_two, hmean2]
    norm_num

/-- C8 witness: the theorem applied at the two-sample one-feature batch
`(0, 2)` with the freshly constructed BatchNorm state: the biased variance is
`1` and the unbiased alternative would be `2`. -/
theorem batchnorm_biased_variance_witness :
    batchVar (fun (i : Fin 2) (_ : Fin 1) => ((i : ℕ) : ℝ) * 2) 0 = 1
    ∧ batchVarUnbiased (fun (i : Fin 2) (_ : Fin 1) => ((i : ℕ) : ℝ) * 2) 0 = 2 := by
  have h := batchnorm_biased_variance (show 0 < 2 by norm_num)
    (fun (i : Fin 2) (_ : Fin 1) => ((i : ℕ) : ℝ) * 2)
    (mkBatchNormState 1 (99/100) (1/100000))
  exact ⟨h.2.2.2.1, h.2.2.2.2⟩

/-- C5: for every composed model containing at least one nested Dropout and
one nested BatchNorm sub-transform, a single `setEvaluationMode()`
(resp. `setTrainingMode()`) call puts every contained sub-transform into
Evaluation (resp. Training) mode, and no sequence of public mode-switch
operations starting from a uniform-mode model can reach a mixed-mode
state. -/
theorem mode_switch_atomicity (n : Net)
    (hd : n.hasDropout = true) (hb : n.hasBatchNorm = true) :
    (setEvaluationMode n).uniform .Evaluation = true
    ∧ (setTrainingMode n).uniform .Training = true
    ∧ (∀ mo : Mode, n.uniform mo = true →
        ∀ ops : List SwitchOp, ∃ mo2 : Mode, (applyOps ops n).uniform mo2 = true) :=
  ⟨uniform_setMode .Evaluation n, uniform_setMode .Training n,
   fun mo hmo ops => applyOps_uniform ops n ⟨mo, hmo⟩⟩

/-- C5 witness: the theorem applied to the two-leaf model
`comp (Dropout p=0) (BatchNorm)`, which contains one Dropout and one
BatchNorm sub-transform; a single `setEvaluationMode()` leaves it uniformly
in Evaluation mode, and so does the operation sequence
`[toEvaluation, toTraining, toEvaluation]`. -/
theorem mode_switch_atomicity_witness :
    (setEvaluationMode (.comp (.dropoutLayer ⟨⟨0, 0, 0⟩, .Training⟩)
        (.batchNormLayer .Training))).uniform .Evaluation = true
    ∧ ∃ mo2 : Mode,
      (applyOps [.toEvaluation, .toTraining, .toEvaluation]
        (.comp (.dropoutLayer ⟨⟨0, 0, 0⟩, .Training⟩)
          (.batchNormLayer .Training))).uniform mo2 = true := by
  have h := mode_switch_atomicity
    (.comp (.dropoutLayer ⟨⟨0, 0, 0⟩, .Training⟩) (.batchNormLayer .Training))
    rfl rfl
  exact ⟨h.1, h.2.2 .Training rfl [.toEvaluation, .toTraining, .toEvaluation]⟩

/-- C9: every Dropout and BatchNorm transform, and every model composed of
them, is in Training mode immediately after construction, and an apply call
never changes the stored mode flag (the mode changes only through the
explicit mode-switch operations). -/
theorem default_training_mode :
    (∀ (p : ℚ) (key : Nat) (l : Dropout),
        mkDropout p key = .ok l → l.mode = Mode.Training)
    ∧ (∀ (d : ℕ) (momentum eps : ℝ), (mkBatchNorm d momentum eps).mode = Mode.Training)
    ∧ (∀ (l : Dropout) (x : List ℚ), (l.call x).2.mode = l.mode)
    ∧ (∀ (m d : ℕ) (l : BatchNorm d) (x : Fin m → Fin d → ℝ),
        (l.call x).2.mode = l.mode)
    ∧ (∀ s : Shape, (build s).uniform Mode.Training = true) := by
  refine ⟨?_, fun d momentum eps => rfl, fun l x => rfl,
    fun m d l x => rfl, uniform_build⟩
  intro p key l h
  rw [mkDropout] at h
  split at h
  · cases h
    rfl
  · cases h

/-- C9 witness: the theorem applied to the concrete construction
`mkDropout 0 0`, whose resulting transform reports Training mode, and to a
concrete composed model. -/
theorem default_training_mode_witness :
    (Dropout.mk ⟨0, 0, 0⟩ Mode.Training).mode = Mode.Training
    ∧ (build (.comp (.drop 0 0) .bnorm)).uniform Mode.Training = true := by
  have h := default_training_mode
  exact ⟨h.1 0 0 ⟨⟨0, 0, 0⟩, Mode.Training⟩ rfl, h.2.2.2.2 (.comp (.drop 0 0) .bnorm)⟩

/-- C10: the public mode-switch operations are idempotent: switching a model
to a mode it is already uniformly in changes nothing, applying the same
switch twice equals applying it once, and all later operation sequences
behave identically after one switch or two. -/
theorem mode_switch_idempotent :
    (∀ (mo : Mode) (n : Net), (n.setMode mo).setMode mo = n.setMode mo)
    ∧ (∀ (op : SwitchOp) (n : Net), applyOp op (applyOp op n) = applyOp op n)
    ∧ (∀ (ops : List SwitchOp) (op : SwitchOp) (n : Net),
        applyOps ops (applyOp op (applyOp op n)) = applyOps ops (applyOp op n))
    ∧ (∀ (mo : Mode) (n : Net), n.uniform mo = true → n.setMode mo = n) := by
  have h1 : ∀ (mo : Mode) (n : Net), (n.setMode mo).setMode mo = n.setMode mo :=
    fun mo n => setMode_setMode mo mo n
  have h2 : ∀ (op : SwitchOp) (n : Net), applyOp op (applyOp op n) = applyOp op n := by
    intro op n
    cases op with
    | toTraining => exact h1 .Training n
    | toEvaluation => exact h1 .Evaluation n
  exact ⟨h1, h2, fun ops op n => by rw [h2 op n], setMode_of_uniform⟩

/-- C10 witness: the theorem applied to a concrete already-evaluation-mode
model: switching it to Evaluation mode again changes nothing. -/
theorem mode_switch_idempotent_witness :
    (Net.batchNormLayer Mode.Evaluation).setMode Mode.Evaluation
      = Net.batchNormLayer Mode.Evaluation
    ∧ applyOp .toEvaluation (applyOp .toEvaluation (Net.batchNormLayer Mode.Training))
      = applyOp .toEvaluation (Net.batchNormLayer Mode.Training) := by
  have h := mode_switch_idempotent
  exact ⟨h.2.2.2 Mode.Evaluation (Net.batchNormLayer Mode.Evaluation) rfl,
    h.2.1 .toEvaluation (Net.batchNormLayer Mode.Training)⟩

/-- C6 counterexample: with the valid drop probability `p = 0`
(`mkDropout 0 0` succeeds), two successive training calls on the same input
draw the same all-ones mask and produce the same output, so it is false that
two successive training calls always produce different masks. -/
theorem dropout_successive_masks_counterexample :
    mkDropout 0 0 = .ok ⟨⟨0, 0, 0⟩, .Training⟩
    ∧ dropoutMask 0 0 0 3 = dropoutMask 0 0 1 3
    ∧ (dropoutApply [1, 2, 3] ⟨0, 0, 0⟩ .Training).1
        = (dropoutApply [1, 2, 3]
            ((dropoutApply [1, 2, 3] ⟨0, 0, 0⟩ .Training).2) .Training).1 := by
  refine ⟨rfl, by decide, ?_⟩
  show dropoutTrainList 0 0 0 [1, 2, 3] = dropoutTrainList 0 0 1 [1, 2, 3]
  rw [dropoutTrainList_zero, dropoutTrainList_zero]

/-- C6 amended: identically configured Dropout instances produce identical
training outputs on the same input; each training call consumes a fresh draw
(the RNG counter advances, so the post-call state always differs from the
pre-call state and the previous call's random state is never reused); and at
the spec's example configuration (`p = 1/2`, stream key `0`, length-10
input) two successive training calls produce different masks and different
masked outputs. -/
theorem dropout_rng_freshness (st st' : DropoutState) (x : List ℚ)
    (hp : st.p = st'.p) (hk : st.key = st'.key) (hc : st.count = st'.count) :
    dropoutApply x st .Training = dropoutApply x st' .Training
    ∧ (dropoutApply x st .Training).2.count = st.count + 1
    ∧ (dropoutApply x st .Training).2 ≠ st
    ∧ (mkRat 1 2 : ℚ) = 1/2
    ∧ dropoutMask (mkRat 1 2) 0 0 10 ≠ dropoutMask (mkRat 1 2) 0 1 10
    ∧ dropoutTrainList (mkRat 1 2) 0 0 (List.replicate 10 1)
        ≠ dropoutTrainList (mkRat 1 2) 0 1 (List.replicate 10 1) := by
  have hhalf : (mkRat 1 2 : ℚ) = 1/2 := by
    rw [Rat.mkRat_eq_divInt, Rat.divInt_eq_div]
    norm_num
  refine ⟨?_, rfl, ?_, hhalf, by decide, ?_⟩
  · obtain ⟨p0, k0, c0⟩ := st
    obtain ⟨p1, k1, c1⟩ := st'
    simp only at hp hk hc
    rw [hp, hk, hc]
  · intro h
    have := congrArg DropoutState.count h
    simp [dropoutApply] at this
  · have h1 : (4:ℕ) < (dropoutTrainList (mkRat 1 2) 0 0 (List.replicate 10 (1:ℚ))).length := by
      rw [length_dropoutTrainList, List.length_replicate]
      norm_num
    have h2 : (4:ℕ) < (dropoutTrainList (mkRat 1 2) 0 1 (List.replicate 10 (1:ℚ))).length := by
      rw [length_dropoutTrainList, List.length_replicate]
      norm_num
    have hx : (4:ℕ) < (List.replicate 10 (1:ℚ)).length := by
      rw [List.length_replicate]
      norm_num
    have e1 : (dropoutTrainList (mkRat 1 2) 0 0 (List.replicate 10 (1:ℚ))).get ⟨4, h1⟩
        = 1 / (1 - mkRat 1 2) := by
      rw [List.get_eq_getElem]
      rw [getElem_dropoutTrainList (mkRat 1 2) 0 0 (List.replicate 10 (1:ℚ)) 4 h1 hx]
      rw [show keepBit (mkRat 1 2) 0 0 4 = true by decide, if_pos rfl]
      rw [List.getElem_replicate]
    have e2 : (dropoutTrainList (mkRat 1 2) 0 1 (List.replicate 10 (1:ℚ))).get ⟨4, h2⟩
        = 0 := by
      rw [List.get_eq_getElem]
      rw [getElem_dropoutTrainList (mkRat 1 2) 0 1 (List.replicate 10 (1:ℚ)) 4 h2 hx]
      rw [show keepBit (mkRat 1 2) 0 1 4 = false by decide]
      rfl
    refine list_ne_of_get_ne 4 h1 h2 ?_
    rw [e1, e2, hhalf]
    norm_num

/-- C6 amended witness: the theorem applied at two identically configured
states `⟨0, 0, 0⟩` on input `[1]`: the RNG counter of the returned state is
advanced, and at the spec's example configuration the two successive masks
differ. -/
theorem dropout_rng_freshness_witness :
    (dropoutApply [1] ⟨0, 0, 0⟩ .Training).2.count = 0 + 1
    ∧ dropoutMask (mkRat 1 2) 0 0 10 ≠ dropoutMask (mkRat 1 2) 0 1 10 := by
  have h := dropout_rng_freshness ⟨0, 0, 0⟩ ⟨0, 0, 0⟩ [1] rfl rfl rfl
  exact ⟨h.2.1, h.2.2.2.2.1⟩

end RegLib
